import Mathlib

/-!
Verification of the edge-rs routing and dispatch core against its
specification.  The repository ships `src/lib.rs` (application container,
thread startup, markdown helper, default middleware) and
`examples/basic.rs`; the modules `router`, `response`, `handler`,
`request`, `buffer` and `client` are declared in `lib.rs` but their
sources are not present, so the routing table, the response writer and
the per-request dispatch pipeline are modelled from the specification,
while thread startup, the default middleware and `render_html` are
embedded from `src/lib.rs` directly.
-/

set_option maxRecDepth 4000

namespace EdgeRs

/-! ## Route patterns and matching (modelled from the spec) -/

/-- HTTP methods supported by the route table (spec §3: Route.method is
an enum of GET, POST, PUT, DELETE, HEAD; `lib.rs` re-exports exactly
these five from hyper). -/
inductive Method where
  | get
  | post
  | put
  | delete
  | head
deriving DecidableEq

/-- Modelled from the spec: `router.rs` is declared in `lib.rs` but its
source is absent.  Spec §3: a pattern segment is a Literal, a named
Param, or a Wildcard used for static mounts. -/
inductive Segment where
  | literal (s : String)
  | param (name : String)
  | wildcard
deriving DecidableEq

/-- Splits a string into path segments, dropping empty segments.
Modelled from the spec (§4.1: pattern parsing splits by the slash
character; a path such as /hello/Jane/Doe yields the segments hello,
Jane, Doe, cf. `req.path()` in `examples/basic.rs`). -/
def splitAux : List Char → List Char → List String
  | [], acc => [String.mk acc.reverse]
  | c :: cs, acc =>
    if c = '/' then String.mk acc.reverse :: splitAux cs []
    else splitAux cs (c :: acc)

/-- Path splitting on the slash character, empty segments removed. -/
def splitPath (s : String) : List String :=
  (splitAux s.toList []).filter (fun seg => seg != "")

/-- Modelled from the spec (§4.1): a segment prefixed with a colon
becomes Param(name), every other segment is a Literal. -/
def parseSegment (s : String) : Segment :=
  match s.toList with
  | ':' :: rest => Segment.param (String.mk rest)
  | _ => Segment.literal s

/-- Parses a pattern string into its segment list (spec §4.1). -/
def parsePattern (pat : String) : List Segment :=
  (splitPath pat).map parseSegment

/-- Modelled from the spec (§4.1): a mount path registered via the
static-file entry point (`get_static` in `lib.rs`) becomes a Wildcard
suffix capturing the remainder of the path. -/
def mountPattern (pre : String) : List Segment :=
  parsePattern pre ++ [Segment.wildcard]

/-- Joins path segments with slashes (the Wildcard remainder is bound
as a single joined value, spec §4.1). -/
def joinSegs : List String → String
  | [] => ""
  | [s] => s
  | s :: rest => s ++ "/" ++ joinSegs rest

/-- Spec §3: a MatchResult carries the bound params in pattern
(insertion) order; a Wildcard additionally binds the joined remainder,
recorded here in `tail`. -/
structure MatchResult where
  params : List (String × String)
  tail : Option String
deriving DecidableEq

/-- Modelled from the spec (§4.1 matching algorithm): segment-by-segment
comparison; a Literal must equal the path segment exactly; a Param
matches any single non-empty segment and binds it; a Wildcard matches
zero or more trailing segments and binds the joined remainder; a
non-wildcard route matches only when segment counts are equal. -/
def matchSegments : List Segment → List String → Option MatchResult
  | [], [] => some { params := [], tail := none }
  | [], _ :: _ => none
  | Segment.wildcard :: _, rest =>
    some { params := [], tail := some (joinSegs rest) }
  | Segment.literal _ :: _, [] => none
  | Segment.literal s :: pat, p :: path =>
    if s = p then matchSegments pat path else none
  | Segment.param _ :: _, [] => none
  | Segment.param n :: pat, p :: path =>
    if p = "" then none
    else (matchSegments pat path).map
      (fun r => { r with params := (n, p) :: r.params })

/-- A registered route: method, parsed pattern and handler descriptor
(spec §3, Route / HandlerDescriptor). -/
structure Route (H : Type) where
  method : Method
  pattern : List Segment
  handler : H

/-- Matching of a single registered route against a request
(spec §4.1: requests are matched against routes registered for the
same method). -/
def matchRoute {H : Type} (m : Method) (path : List String) (r : Route H) :
    Option (H × MatchResult) :=
  if r.method = m then (matchSegments r.pattern path).map (fun res => (r.handler, res))
  else none

/-- Modelled from the spec (§4.1): lookup scans the registered routes in
registration order and returns the first match. -/
def findRoute {H : Type} (m : Method) (path : List String) :
    List (Route H) → Option (H × MatchResult)
  | [] => none
  | r :: rs =>
    match matchRoute m path r with
    | some x => some x
    | none => findRoute m path rs

/-- One segment of a pattern is compatible with one path segment:
Literals must agree, a Param needs a non-empty segment, a Wildcard is
not a per-segment matcher. -/
def segOk : Segment → String → Bool
  | Segment.literal s, p => s == p
  | Segment.param _, p => p != ""
  | Segment.wildcard, _ => false

/-- Position-wise compatibility of a (wildcard-free) pattern with a path
of the same segment count. -/
def segsOk : List Segment → List String → Bool
  | [], [] => true
  | s :: pat, p :: path => segOk s p && segsOk pat path
  | _, _ => false

/-- The params a compatible pattern extracts from a path: each Param
name paired with the corresponding path segment, in pattern order. -/
def extractParams : List Segment → List String → List (String × String)
  | Segment.param n :: pat, _p :: path => (n, _p) :: extractParams pat path
  | _ :: pat, _ :: path => extractParams pat path
  | _, _ => []

/-- The Param names of a pattern, in pattern order. -/
def paramNames : List Segment → List String
  | [] => []
  | Segment.param n :: pat => n :: paramNames pat
  | _ :: pat => paramNames pat

theorem extractParams_fst (pat : List Segment) (path : List String)
    (h : segsOk pat path = true) :
    (extractParams pat path).map Prod.fst = paramNames pat := by
  induction pat generalizing path with
  | nil =>
    cases path with
    | nil => simp [extractParams, paramNames]
    | cons p ps => simp [segsOk] at h
  | cons s pat ih =>
    cases path with
    | nil => simp [segsOk] at h
    | cons p ps =>
      cases s with
      | literal l =>
        simp only [segsOk, Bool.and_eq_true] at h
        simp [extractParams, paramNames, ih ps h.2]
      | param n =>
        simp only [segsOk, Bool.and_eq_true] at h
        simp [extractParams, paramNames, ih ps h.2]
      | wildcard => simp [segsOk, segOk] at h

/-- Claim C1: for every wildcard-free pattern whose literal segments
agree with a path of the same segment count (every Param position
holding a non-empty segment), matching succeeds and the params map each
parameter name to the corresponding path segment, in pattern order. -/
theorem match_params (pat : List Segment) (path : List String)
    (h : segsOk pat path = true) :
    matchSegments pat path = some { params := extractParams pat path, tail := none } ∧
    (extractParams pat path).map Prod.fst = paramNames pat := by
  refine ⟨?_, extractParams_fst pat path h⟩
  induction pat generalizing path with
  | nil =>
    cases path with
    | nil => simp [matchSegments, extractParams]
    | cons p ps => simp [segsOk] at h
  | cons s pat ih =>
    cases path with
    | nil => simp [segsOk] at h
    | cons p ps =>
      cases s with
      | literal l =>
        simp only [segsOk, segOk, Bool.and_eq_true, beq_iff_eq] at h
        simp [matchSegments, h.1, extractParams, ih ps h.2]
      | param n =>
        simp only [segsOk, segOk, Bool.and_eq_true, bne_iff_ne] at h
        simp [matchSegments, h.1, extractParams, ih ps h.2]
      | wildcard => simp [segsOk, segOk] at h

/-- Claim C1 witness: the pattern /hello/:first_name/:last_name from
`examples/basic.rs` matched against /hello/Jane/Doe binds first_name to
Jane and last_name to Doe, in that order. -/
theorem match_params_hello :
    segsOk (parsePattern "/hello/:first_name/:last_name")
      (splitPath "/hello/Jane/Doe") = true ∧
    matchSegments (parsePattern "/hello/:first_name/:last_name")
      (splitPath "/hello/Jane/Doe") =
      some { params := [("first_name", "Jane"), ("last_name", "Doe")], tail := none } := by
  refine ⟨by decide, ?_⟩
  have h := match_params (parsePattern "/hello/:first_name/:last_name")
    (splitPath "/hello/Jane/Doe") (by decide)
  exact h.1.trans (by decide)

/-- Claim C7: a Wildcard pattern whose leading segments are compatible
with the leading path segments matches any remainder (zero or more
trailing segments) and binds the remainder joined by slashes. -/
theorem match_wildcard (pre : List Segment) (ps rest : List String)
    (h : segsOk pre ps = true) :
    matchSegments (pre ++ [Segment.wildcard]) (ps ++ rest) =
      some { params := extractParams pre ps, tail := some (joinSegs rest) } := by
  induction pre generalizing ps with
  | nil =>
    cases ps with
    | nil => simp [matchSegments, extractParams]
    | cons p pp => simp [segsOk] at h
  | cons s pre ih =>
    cases ps with
    | nil => simp [segsOk] at h
    | cons p pp =>
      cases s with
      | literal l =>
        simp only [segsOk, segOk, Bool.and_eq_true, beq_iff_eq] at h
        simp [matchSegments, h.1, extractParams, ih pp h.2]
      | param n =>
        simp only [segsOk, segOk, Bool.and_eq_true, bne_iff_ne] at h
        simp [matchSegments, h.1, extractParams, ih pp h.2]
      | wildcard => simp [segsOk, segOk] at h

/-- Claim C7 witness: for the static mount at /static registered in
`examples/basic.rs`, the path /static/css/site.css matches and the
bound remainder is css/site.css. -/
theorem match_wildcard_static :
    splitPath "/static/css/site.css" = ["static"] ++ ["css", "site.css"] ∧
    segsOk (parsePattern "/static") ["static"] = true ∧
    matchSegments (mountPattern "/static") (splitPath "/static/css/site.css") =
      some { params := [], tail := some "css/site.css" } := by
  refine ⟨by decide, by decide, ?_⟩
  have h := match_wildcard (parsePattern "/static") ["static"] ["css", "site.css"]
    (by decide)
  have hs : splitPath "/static/css/site.css" = ["static"] ++ ["css", "site.css"] := by decide
  rw [mountPattern, hs, h]
  decide

/-- Claim C5: route lookup is first-registered-first-matched — when a
route matches and every route registered before it does not, lookup
returns that route's handler; in particular a duplicate registration of
the same pattern for the same method is never selected over the first
one. -/
theorem first_registered_wins {H : Type} (m : Method) (path : List String)
    (pre post : List (Route H)) (r : Route H) (x : H × MatchResult)
    (hpre : ∀ r2 ∈ pre, matchRoute m path r2 = none)
    (hr : matchRoute m path r = some x) :
    findRoute m path (pre ++ r :: post) = some x := by
  induction pre with
  | nil => simp [findRoute, hr]
  | cons a rest ih =>
    have ha : matchRoute m path a = none := hpre a (by simp)
    simp only [List.cons_append, findRoute, ha]
    exact ih (fun r2 hh => hpre r2 (by simp [hh]))

/-- Claim C5 witness: registering the pattern /dup twice for GET with
handlers 1 and 2 — a GET request for /dup is served by handler 1, the
first registered. -/
theorem first_registered_wins_dup :
    findRoute Method.get (splitPath "/dup")
      [{ method := Method.get, pattern := parsePattern "/dup", handler := (1 : Nat) },
       { method := Method.get, pattern := parsePattern "/dup", handler := (2 : Nat) }] =
      some (1, { params := [], tail := none }) := by
  have h := first_registered_wins Method.get (splitPath "/dup") []
    [{ method := Method.get, pattern := parsePattern "/dup", handler := (2 : Nat) }]
    { method := Method.get, pattern := parsePattern "/dup", handler := (1 : Nat) }
    (1, { params := [], tail := none })
    (by intro r2 hh; simp at hh)
    (by decide)
  simpa using h

/-! ## ResponseWriter state machine (modelled from the spec) -/

/-- Modelled from the spec: `response.rs` is declared in `lib.rs` but
its source is absent.  Spec §3: the ResponseWriter is a state machine
with states Building, Streaming and Committed. -/
inductive WriterState where
  | building
  | streaming
  | committed
deriving DecidableEq

/-- The observable response-writer data: its state, the status and
headers set while Building, the assembled body, and the number of
responses emitted to the connection so far. -/
structure Writer where
  state : WriterState
  status : Nat
  headers : List (String × String)
  body : String
  emitted : Nat
deriving DecidableEq

/-- A fresh writer for one request: Building, nothing emitted. -/
def initWriter : Writer :=
  { state := WriterState.building, status := 200, headers := [], body := "", emitted := 0 }

/-- The operations of spec §4.6: setStatus, setHeader, send (commits a
full body), stream (switches to Streaming), append (writes one chunk to
the live connection) and close (finalizes a Streaming response when the
handle is dropped). -/
inductive WriterOp where
  | setStatus (s : Nat)
  | setHeader (k v : String)
  | send (b : String)
  | stream
  | append (c : String)
  | close
deriving DecidableEq

/-- Modelled from the spec (§3, §4.6): in Building a handler may set
status and headers and then send (Building to Committed, emitting the
complete response) or switch to Streaming once; in Streaming repeated
appends write chunks in call order and dropping the handle closes the
stream (Streaming to Committed, emitting the response).  Once Committed
no further operation is accepted (a rejected write leaves the writer
unchanged). -/
def applyOp (w : Writer) : WriterOp → Writer
  | WriterOp.setStatus s =>
    if w.state = WriterState.building then { w with status := s } else w
  | WriterOp.setHeader k v =>
    if w.state = WriterState.building then { w with headers := w.headers ++ [(k, v)] } else w
  | WriterOp.send b =>
    if w.state = WriterState.building then
      { w with state := WriterState.committed, body := b, emitted := w.emitted + 1 }
    else w
  | WriterOp.stream =>
    if w.state = WriterState.building then { w with state := WriterState.streaming } else w
  | WriterOp.append c =>
    if w.state = WriterState.streaming then { w with body := w.body ++ c } else w
  | WriterOp.close =>
    if w.state = WriterState.streaming then
      { w with state := WriterState.committed, emitted := w.emitted + 1 }
    else w

/-- Runs a sequence of handler operations on a writer. -/
def runOps (w : Writer) : List WriterOp → Writer
  | [] => w
  | op :: ops => runOps (applyOp w op) ops

/-- The response-count invariant: a writer has emitted exactly one
response iff it is Committed, and none otherwise. -/
def writerInv (w : Writer) : Prop :=
  (w.state = WriterState.committed → w.emitted = 1) ∧
  (w.state ≠ WriterState.committed → w.emitted = 0)

theorem writerInv_step (w : Writer) (op : WriterOp) (h : writerInv w) :
    writerInv (applyOp w op) := by
  obtain ⟨h1, h2⟩ := h
  cases hs : w.state <;>
    cases op <;>
    simp [applyOp, hs, writerInv] <;>
    first
      | exact h1 hs
      | exact h2 (by simp [hs])

theorem writerInv_runOps (ops : List WriterOp) (w : Writer) (h : writerInv w) :
    writerInv (runOps w ops) := by
  induction ops generalizing w with
  | nil => exact h
  | cons op ops ih => exact ih (applyOp w op) (writerInv_step w op h)

theorem committed_applyOp_eq (w : Writer) (hw : w.state = WriterState.committed)
    (op : WriterOp) : applyOp w op = w := by
  cases op <;> simp [applyOp, hw]

/-- Claim C4: for every sequence of handler operations starting from a
fresh writer, at most one response is emitted; and once the writer is
Committed (by send from Building or by finalizing a Streaming handle)
every further operation is rejected, leaving the writer unchanged, and
exactly one response has been produced. -/
theorem writer_once_committed (ops : List WriterOp)
    (hc : (runOps initWriter ops).state = WriterState.committed) :
    (runOps initWriter ops).emitted ≤ 1 ∧
    (∀ op, applyOp (runOps initWriter ops) op = runOps initWriter ops) ∧
    (runOps initWriter ops).emitted = 1 := by
  have hinv : writerInv (runOps initWriter ops) :=
    writerInv_runOps ops initWriter (by simp [writerInv, initWriter])
  refine ⟨?_, fun op => committed_applyOp_eq _ hc op, hinv.1 hc⟩
  rw [hinv.1 hc]

/-- Claim C4 witness: after a handler sends a body the writer is
Committed, has emitted exactly one response, and a subsequent append is
rejected. -/
theorem writer_once_committed_send :
    (runOps initWriter [WriterOp.send "x"]).state = WriterState.committed ∧
    ((runOps initWriter [WriterOp.send "x"]).emitted ≤ 1 ∧
      (∀ op, applyOp (runOps initWriter [WriterOp.send "x"]) op =
        runOps initWriter [WriterOp.send "x"]) ∧
      (runOps initWriter [WriterOp.send "x"]).emitted = 1) :=
  ⟨by decide, writer_once_committed [WriterOp.send "x"] (by decide)⟩

/-- Concatenation of streamed chunks in call order. -/
def concatChunks : List String → String
  | [] => ""
  | c :: cs => c ++ concatChunks cs

theorem strAppendAssoc (a b c : String) : a ++ b ++ c = a ++ (b ++ c) := by
  apply String.ext
  simp [String.data_append, List.append_assoc]

theorem runOps_append_chunks (cs : List String) (w : Writer)
    (hw : w.state = WriterState.streaming) :
    runOps w (cs.map WriterOp.append) =
      { w with body := w.body ++ concatChunks cs } := by
  induction cs generalizing w with
  | nil => simp [runOps, concatChunks]
  | cons c cs ih =>
    have hstep : applyOp w (WriterOp.append c) = { w with body := w.body ++ c } := by
      simp [applyOp, hw]
    simp only [List.map_cons, runOps, hstep]
    rw [ih { w with body := w.body ++ c } (by simp [hw])]
    simp [concatChunks, strAppendAssoc]

/-- Claim C6: streaming a sequence of chunks and closing the handle
assembles a body equal to the concatenation of the chunks in call
order, producing exactly one committed response; in particular the
chunks a, b, c assemble to abc. -/
theorem streaming_chunk_order (cs : List String) :
    (runOps initWriter (WriterOp.stream :: (cs.map WriterOp.append ++ [WriterOp.close]))).body =
      concatChunks cs ∧
    (runOps initWriter (WriterOp.stream :: (cs.map WriterOp.append ++ [WriterOp.close]))).state =
      WriterState.committed ∧
    (runOps initWriter (WriterOp.stream :: (cs.map WriterOp.append ++ [WriterOp.close]))).emitted = 1 ∧
    concatChunks ["a", "b", "c"] = "abc" := by
  have hrun : ∀ w : Writer, ∀ ops1 ops2 : List WriterOp,
      runOps w (ops1 ++ ops2) = runOps (runOps w ops1) ops2 := by
    intro w ops1
    induction ops1 generalizing w with
    | nil => intro ops2; rfl
    | cons op ops ih => intro ops2; simp only [List.cons_append, runOps]; exact ih _ _
  have hstream : runOps initWriter [WriterOp.stream] =
      { initWriter with state := WriterState.streaming } := by decide
  have h1 : runOps initWriter (WriterOp.stream :: (cs.map WriterOp.append ++ [WriterOp.close])) =
      runOps (runOps { initWriter with state := WriterState.streaming }
        (cs.map WriterOp.append)) [WriterOp.close] := by
    show runOps initWriter ([WriterOp.stream] ++ (cs.map WriterOp.append ++ [WriterOp.close])) = _
    rw [hrun, hstream, hrun]
  rw [h1, runOps_append_chunks cs _ (by rfl)]
  simp [runOps, applyOp, initWriter]
  decide

/-! ## Per-request dispatch (modelled from the spec) -/

/-- A completed HTTP response: status and body. -/
structure SimpleResponse where
  status : Nat
  body : String
deriving DecidableEq

/-- Spec §7: an InstanceCreationFailure is surfaced as an internal-error
response. -/
def internalError : SimpleResponse := { status := 500, body := "internal error" }

/-- Modelled from the spec: `handler.rs` is declared in `lib.rs` but its
source is absent.  Spec §4.3 and §7: the application instance is
constructed (or cloned) per request; when construction fails the
Dispatcher answers that request with an internal-error response,
otherwise the callback runs on the fresh instance. -/
def handleRequest {A Req : Type} (callback : A → Req → SimpleResponse)
    (item : Option A × Req) : SimpleResponse :=
  match item.1 with
  | none => internalError
  | some app => callback app item.2

/-- Modelled from the spec (§4.5): the listener's accept-and-serve loop
answers every parsed request in turn; each request carries its own
construction attempt. -/
def serveLoop {A Req : Type} (callback : A → Req → SimpleResponse)
    (items : List (Option A × Req)) : List SimpleResponse :=
  items.map (handleRequest callback)

/-- Claim C3: a construction (or clone) failure for one request yields
the internal-error response for exactly that request; the serve loop
still answers every request (it is not terminated), and every other
request's response is exactly what its own construction attempt and
request determine, unaffected by the failure. -/
theorem instance_failure_contained {A Req : Type}
    (callback : A → Req → SimpleResponse)
    (items : List (Option A × Req)) (i : Nat) (req : Req)
    (hfail : items[i]? = some (none, req)) :
    (serveLoop callback items)[i]? = some internalError ∧
    (serveLoop callback items).length = items.length ∧
    (∀ j c r, j ≠ i → items[j]? = some (c, r) →
      (serveLoop callback items)[j]? = some (handleRequest callback (c, r))) := by
  refine ⟨?_, by simp [serveLoop], ?_⟩
  · rw [serveLoop, List.getElem?_map, hfail]
    rfl
  · intro j c r _ hj
    rw [serveLoop, List.getElem?_map, hj]
    rfl

/-- Claim C3 witness: with two requests, the second failing
construction, the loop answers the first normally, the second with the
internal error, and both requests are answered. -/
theorem instance_failure_contained_ex :
    (serveLoop (fun (_ : Unit) (_ : Nat) => { status := 200, body := "ok" })
      [(some (), 0), (none, 1)])[1]? = some internalError ∧
    (serveLoop (fun (_ : Unit) (_ : Nat) => { status := 200, body := "ok" })
      [(some (), 0), (none, 1)]).length = 2 ∧
    (∀ j c r, j ≠ 1 →
      ([((some () : Option Unit), (0 : Nat)), (none, 1)])[j]? = some (c, r) →
      (serveLoop (fun (_ : Unit) (_ : Nat) => { status := 200, body := "ok" })
        [(some (), 0), (none, 1)])[j]? =
        some (handleRequest (fun (_ : Unit) (_ : Nat) => { status := 200, body := "ok" }) (c, r))) := by
  have h := instance_failure_contained
    (fun (_ : Unit) (_ : Nat) => ({ status := 200, body := "ok" } : SimpleResponse))
    [(some (), 0), (none, 1)] 1 1 (by rfl)
  exact ⟨h.1, h.2.1, h.2.2⟩

/-! ## Default middleware (from `src/lib.rs`) -/

/-- The framework-supplied default Middleware impl for every type T
(`lib.rs` lines 233-238): `fn before(&mut self, _: &mut Request) {}` —
an empty body, mutating neither the instance nor the request. -/
def before {A Req : Type} (app : A) (req : Req) : A × Req := (app, req)

/-- Modelled from the spec (§2 data flow, §4.4): the Dispatcher runs the
middleware hook on the freshly created instance, then the matched route
callback sees the instance and request the hook produced. -/
def invokeWithMiddleware {A Req : Type} (hook : A → Req → A × Req)
    (callback : A → Req → SimpleResponse) (app : A) (req : Req) : SimpleResponse :=
  callback (hook app req).1 (hook app req).2

/-- Claim C8: the default before hook is a no-op — it leaves the
instance and the request unchanged — and running the pipeline with it
gives the callback exactly the original instance and request. -/
theorem default_before_noop {A Req : Type} (app : A) (req : Req)
    (callback : A → Req → SimpleResponse) :
    before app req = (app, req) ∧
    invokeWithMiddleware before callback app req = callback app req :=
  ⟨rfl, rfl⟩

/-! ## Server startup (`Edge::start` and `Edge::start_with`, from
`src/lib.rs`) -/

/-- The environment a startup run interacts with: the machine's
available parallelism (`num_cpus::get()`), address resolution
(`to_socket_addrs().next()`), listener binding (`HttpListener::bind`),
handle cloning (`listener.try_clone()`, per thread index) and the
outcome of each spawned thread's serve loop (`Server::handle(..)`).
A `none` models the corresponding fallible call failing. -/
structure NetEnv where
  availableParallelism : Nat
  resolveAddr : Option Nat
  bindListener : Nat → Option Nat
  tryClone : Nat → Nat → Option Nat
  serveResult : Nat → Option Unit

/-- One spawned listener thread: its index in the spawn loop and the
cloned socket handle it accepts on. -/
structure ListenerThread where
  idx : Nat
  handle : Nat
deriving DecidableEq

/-- The configuration a successful startup builds: the worker-pool size
(`Pool::new(num_threads)`), the bound listening socket, and the spawned
listener threads. -/
structure StartState where
  poolSize : Nat
  boundListener : Nat
  listeners : List ListenerThread
deriving DecidableEq

/-- Outcome of `start`/`start_with`: either some `unwrap` panicked, or
the function returned its `IoResult` value (carrying the built
configuration on success). -/
inductive StartOutcome where
  | panicked
  | returned (r : Except String StartState)

/-- `let num_threads = ::std::cmp::max(num_cpus::get() / 2, 1)` — 50%
of the hardware threads for the pool, 50% for the listeners (`lib.rs`
lines 313-314 and 350-351). -/
def num_threads (availableParallelism : Nat) : Nat :=
  Nat.max (availableParallelism / 2) 1

/-- `Edge::start` (`lib.rs` lines 308-334): resolve the address
(`unwrap`), bind the listener (`unwrap`), compute
`num_threads = max(num_cpus::get() / 2, 1)`, create a pool of that
size, and for each of `0..num_threads` clone the listener handle
(`unwrap`) and spawn a thread whose serve loop result is unwrapped;
finally return `Ok(())`.  Every failure is a panic, never an `Err`. -/
def Edge.start (env : NetEnv) : StartOutcome :=
  match env.resolveAddr with
  | none => StartOutcome.panicked
  | some addr =>
    match env.bindListener addr with
    | none => StartOutcome.panicked
    | some listener =>
      if (List.range (num_threads env.availableParallelism)).all
          (fun i => (env.tryClone listener i).isSome) then
        if (List.range (num_threads env.availableParallelism)).all
            (fun i => (env.serveResult i).isSome) then
          StartOutcome.returned (Except.ok
            { poolSize := num_threads env.availableParallelism
              boundListener := listener
              listeners := (List.range (num_threads env.availableParallelism)).map
                (fun i => { idx := i, handle := (env.tryClone listener i).getD 0 }) })
        else StartOutcome.panicked
      else StartOutcome.panicked

/-- `Edge::start_with` (`lib.rs` lines 345-371): identical startup
control flow to `Edge::start`, except each request's instance is cloned
from the given seed instead of default-constructed; the seed does not
influence resolution, binding, thread count or pool size. -/
def Edge.start_with {A : Type} (_seed : A) (env : NetEnv) : StartOutcome :=
  Edge.start env

theorem opt_eq_some_getD (o : Option Nat) (h : o.isSome = true) : o = some (o.getD 0) := by
  cases o with
  | none => simp at h
  | some v => rfl

theorem start_ok_state (env : NetEnv) (st : StartState)
    (h : Edge.start env = StartOutcome.returned (Except.ok st)) :
    st.listeners.length = Nat.max (env.availableParallelism / 2) 1 ∧
    st.poolSize = Nat.max (env.availableParallelism / 2) 1 ∧
    ∀ lt ∈ st.listeners, env.tryClone st.boundListener lt.idx = some lt.handle := by
  unfold Edge.start at h
  split at h
  · exact absurd h (by simp)
  split at h
  · exact absurd h (by simp)
  rename_i listener hb
  split at h
  · rename_i hclone
    split at h
    · simp only [StartOutcome.returned.injEq, Except.ok.injEq] at h
      subst h
      refine ⟨by simp [num_threads], by simp [num_threads], ?_⟩
      intro lt hlt
      simp only [List.mem_map, List.mem_range] at hlt
      obtain ⟨i, hi, hieq⟩ := hlt
      have hsome : (env.tryClone listener i).isSome = true :=
        List.all_eq_true.mp hclone i (List.mem_range.mpr hi)
      rw [← hieq]
      exact opt_eq_some_getD _ hsome
    · exact absurd h (by simp)
  · exact absurd h (by simp)

/-- Claim C2: whenever `start` (respectively `start_with` with any
seed) reaches serving on a machine with the given available
parallelism, it spawns exactly max(availableParallelism / 2, 1)
listener threads, each accepting on a handle cloned from the one bound
listening socket, and sizes the worker pool at exactly the same
max(availableParallelism / 2, 1). -/
theorem start_thread_counts {A : Type} (env : NetEnv) (st st2 : StartState) (seed : A)
    (h : Edge.start env = StartOutcome.returned (Except.ok st))
    (h2 : Edge.start_with seed env = StartOutcome.returned (Except.ok st2)) :
    (st.listeners.length = Nat.max (env.availableParallelism / 2) 1 ∧
      st.poolSize = Nat.max (env.availableParallelism / 2) 1 ∧
      ∀ lt ∈ st.listeners, env.tryClone st.boundListener lt.idx = some lt.handle) ∧
    (st2.listeners.length = Nat.max (env.availableParallelism / 2) 1 ∧
      st2.poolSize = Nat.max (env.availableParallelism / 2) 1 ∧
      ∀ lt ∈ st2.listeners, env.tryClone st2.boundListener lt.idx = some lt.handle) :=
  ⟨start_ok_state env st h, start_ok_state env st2 h2⟩

/-- A fully successful startup environment on a 4-way machine. -/
def env4 : NetEnv :=
  { availableParallelism := 4
    resolveAddr := some 0
    bindListener := fun _ => some 5
    tryClone := fun l i => some (l + i)
    serveResult := fun _ => some () }

/-- The configuration `start` builds in `env4`: two listener threads on
clones of socket 5, pool of two workers. -/
def st4 : StartState :=
  { poolSize := 2
    boundListener := 5
    listeners := [{ idx := 0, handle := 5 }, { idx := 1, handle := 6 }] }

/-- Claim C2 witness: on the 4-way machine both `start` and
`start_with` spawn 2 = max(4 / 2, 1) listener threads on clones of the
bound socket and a pool of 2 workers. -/
theorem start_thread_counts_4way :
    Edge.start env4 = StartOutcome.returned (Except.ok st4) ∧
    ((st4.listeners.length = Nat.max (env4.availableParallelism / 2) 1 ∧
      st4.poolSize = Nat.max (env4.availableParallelism / 2) 1 ∧
      ∀ lt ∈ st4.listeners, env4.tryClone st4.boundListener lt.idx = some lt.handle) ∧
    (st4.listeners.length = Nat.max (env4.availableParallelism / 2) 1 ∧
      st4.poolSize = Nat.max (env4.availableParallelism / 2) 1 ∧
      ∀ lt ∈ st4.listeners, env4.tryClone st4.boundListener lt.idx = some lt.handle)) :=
  ⟨rfl, start_thread_counts env4 st4 st4 () rfl rfl⟩

/-- Claim C10: `start` and `start_with` never return an `Err` value of
their `IoResult` type — for every environment (address resolution,
binding, cloning and serving each allowed to fail) the outcome is
either a panic from an `unwrap` or a normal `Ok` return. -/
theorem start_never_err {A : Type} (env : NetEnv) (seed : A) :
    (Edge.start env = StartOutcome.panicked ∨
      ∃ st, Edge.start env = StartOutcome.returned (Except.ok st)) ∧
    (Edge.start_with seed env = StartOutcome.panicked ∨
      ∃ st, Edge.start_with seed env = StartOutcome.returned (Except.ok st)) := by
  have hgen : Edge.start env = StartOutcome.panicked ∨
      ∃ st, Edge.start env = StartOutcome.returned (Except.ok st) := by
    unfold Edge.start
    split
    · exact Or.inl rfl
    split
    · exact Or.inl rfl
    split
    · split
      · exact Or.inr ⟨_, rfl⟩
      · exact Or.inl rfl
    · exact Or.inl rfl
  exact ⟨hgen, hgen⟩

/-! ## Markdown rendering (`render_html`, from `src/lib.rs`) -/

/-- The Markdown options `render_html` enables:
OPTION_ENABLE_TABLES and OPTION_ENABLE_FOOTNOTES. -/
structure MarkdownOptions where
  tables : Bool
  footnotes : Bool
deriving DecidableEq

/-- The options built at the top of `render_html`: empty, then tables
and footnotes inserted. -/
def renderOptions : MarkdownOptions := { tables := true, footnotes := true }

/-- `render_html` (`lib.rs` lines 374-383), threaded through an
explicit world state to make its effects observable: it builds the
fixed options, runs the Markdown-to-HTML collaborator
(`pulldown_cmark`'s parse plus `html::push_html`, external to this
repository and passed here as the pure function the spec's collaborator
contract gives) on its input text, and returns the resulting string,
touching no other state. -/
def render_html {W : Type} (pushHtml : MarkdownOptions → String → String)
    (text : String) (world : W) : String × W :=
  (pushHtml renderOptions text, world)

/-- Claim C9: `render_html` is pure, total and deterministic — for
every input it returns an HTML string, leaves the world unchanged, and
its output depends only on the input text: invocations from any two
world states agree. -/
theorem render_html_pure {W : Type} (pushHtml : MarkdownOptions → String → String)
    (text : String) (w w2 : W) :
    (render_html pushHtml text w).2 = w ∧
    (render_html pushHtml text w).1 = (render_html pushHtml text w2).1 ∧
    (render_html pushHtml text w).1 = pushHtml renderOptions text :=
  ⟨rfl, rfl, rfl⟩

end EdgeRs
